import Mathlib

/-
Verification of the DjangoQL completion engine (src/index.js) against its
specification. The JavaScript functions relevant to the claims are embedded
shallowly below:

  * resolveName            -> DjangoQL.resolveName / DjangoQL.resolveNameGo
  * getContext field scope -> DjangoQL.getContextFieldScope (lines 683-704)
  * getContext value scope -> DjangoQL.getContextValueScope (lines 711-721)
  * generateSuggestions    -> DjangoQL.fieldScopeSuggestions,
                              DjangoQL.comparisonSuggestions and the two
                              search filters
  * loadFieldOptions page-delivery callback -> DjangoQL.loadFieldOptionsSuccess

JavaScript strings are Lean String; a JS object used as a map is an
association list; a JS value that may be null is an Option; a JS runtime
TypeError (property access on undefined) is modelled as Except.error ().
-/

namespace DjangoQL

/-- A field definition from the introspection schema:
type is one of "int", "float", "str", "bool", "date", "datetime",
"relation", "unknown"; relation is the target model of a relation field
(null in JS is none); options is the JS truthiness of the field's
options attribute (an inline list or the value true); nullable mirrors
the nullable attribute. -/
structure FieldDef where
  type : String
  relation : Option String
  options : Bool
  nullable : Bool
deriving Repr, DecidableEq

/-- The field map of one model: an association list from field name to
definition (a JS object, so keys are looked up left to right). -/
abbrev ModelFields := List (String × FieldDef)

/-- The models map of the schema. -/
abbrev Models := List (String × ModelFields)

/-- JS object property lookup on the models map: models[m]. -/
def lookupModel : Models → String → Option ModelFields
  | [], _ => none
  | (k, v) :: rest, m => if k == m then some v else lookupModel rest m

/-- JS object property lookup on a field map: modelFields[name]. -/
def lookupField : ModelFields → String → Option FieldDef
  | [], _ => none
  | (k, v) :: rest, name => if k == name then some v else lookupField rest name

/-- JS truthiness of a nullable string (null and the empty string are falsy). -/
def jsTruthy : Option String → Bool
  | none => false
  | some s => s != ""

/-- JS String.prototype.split('.'): accumulator-based splitting of the
character list on the dot character. ''.split('.') is ['']. -/
def splitDotAux : List Char → List Char → List String
  | [], acc => [String.mk acc.reverse]
  | c :: cs, acc =>
    if c = '.' then String.mk acc.reverse :: splitDotAux cs []
    else splitDotAux cs (c :: acc)

/-- JS name.split('.'). -/
def splitDot (s : String) : List String :=
  splitDotAux s.data []

/-- JS parts.join('.'). -/
def joinDot : List String → String
  | [] => ""
  | [x] => x
  | x :: y :: rest => x ++ "." ++ joinDot (y :: rest)

/-- The result of resolveName: the chain of models traversed (the JS code
can push a null relation target, hence Option entries), the terminal model
and the terminal field. -/
structure Resolved where
  modelStack : List (Option String)
  model : Option String
  field : Option String
deriving Repr, DecidableEq

/-- The loop of resolveName (src/index.js lines 613-626), walking the
dot-separated parts. State: the remaining parts, the current (non-null)
model, the stack built so far, and the field recorded so far. Each
iteration evaluates f = this.models[model][part]; if this.models[model]
is undefined (the current model id is not a key of models) the property
access throws a TypeError, modelled as Except.error (). An unknown part
(f falsy) sets model and field to null and breaks out of the loop. A
relation part pushes the target onto the stack, advances the model to it
and clears the field; a null relation target makes the next iteration
throw, because this.models[null] is undefined. Any other part becomes
the recorded field. -/
def resolveNameGo (models : Models) :
    List String → String → List (Option String) → Option String →
    Except Unit Resolved
  | [], model, stack, fld => .ok ⟨stack, some model, fld⟩
  | p :: rest, model, stack, _fld =>
    match lookupModel models model with
    | none => .error ()
    | some fields =>
      match lookupField fields p with
      | none => .ok ⟨stack, none, none⟩
      | some f =>
        if f.type == "relation" then
          match f.relation with
          | some rel => resolveNameGo models rest rel (stack ++ [some rel]) none
          | none =>
            match rest with
            | [] => .ok ⟨stack ++ [none], none, none⟩
            | _ :: _ => .error ()
        else
          resolveNameGo models rest model stack (some p)

/-- resolveName (src/index.js lines 601-629). If the current model is
falsy the loop is skipped and the stack stays empty; otherwise the model
is pushed and the dotted name is walked part by part. -/
def resolveName (models : Models) (currentModel : Option String)
    (name : String) : Except Unit Resolved :=
  match currentModel with
  | some m =>
    if m != "" then resolveNameGo models (splitDot name) m [some m] none
    else .ok ⟨[], some m, none⟩
  | none => .ok ⟨[], none, none⟩

/-- List-level check that pat occurs as a prefix of some suffix of s,
i.e. pat is a substring of s. -/
def hasSubList (pat : List Char) : List Char → Bool
  | [] => pat.isPrefixOf []
  | c :: cs => pat.isPrefixOf (c :: cs) || hasSubList pat cs

/-- JS s.indexOf(pat) >= 0: pat occurs somewhere inside s. This is the
default search filter of generateSuggestions (src/index.js line 902). -/
def jsIndexOfNonneg (s pat : String) : Bool :=
  hasSubList pat.data s.data

/-- JS s.lastIndexOf(pat, 0) === 0: s starts with pat. This is the
comparison-scope search filter (src/index.js line 977). -/
def jsStartsWith (s pat : String) : Bool :=
  pat.data.isPrefixOf s.data

/-- Field-scope candidate generation (src/index.js lines 916-928):
Object.keys(model) filtered by the relation-suppression predicate. A key
is dropped exactly when its field is a relation whose target is contained
in modelStack and differs from the last stack element (slice(-1)[0]).
Only the suggestion texts are modelled; the snippet that the code
attaches afterwards ('.' for relations, ' ' otherwise) carries no
information about which fields are offered. -/
def fieldScopeKeep (modelStack : List (Option String)) (fd : FieldDef) :
    Bool :=
  !(fd.type == "relation" && modelStack.contains fd.relation
      && !(modelStack.getLast? == some fd.relation))

/-- The filtered key list of the field-scope branch. -/
def fieldScopeSuggestions (fields : ModelFields)
    (modelStack : List (Option String)) : List String :=
  (fields.filter (fun p => fieldScopeKeep modelStack p.2)).map Prod.fst

/-- Field-scope suggestions after the final search filter
(src/index.js line 1016) with the default substring matcher. -/
def generateFieldSuggestions (fields : ModelFields)
    (modelStack : List (Option String)) (pfx : String) : List String :=
  (fieldScopeSuggestions fields modelStack).filter
    (fun t => jsIndexOfNonneg t pfx)

/-- Comparison-scope candidate texts (src/index.js lines 933-975) for the
resolved field (none when the name resolved to a relation with no terminal
field). The branch structure mirrors the source: '=' and '!=' always; for
a truthy non-bool field, '~' and '!~' for date/datetime, the full string
operator set for str; ordering operators for every non-str (non-bool)
field; 'in' and 'not in' appended for every truthy non-bool field. The
source also computes snippetAfter strings (including the branch that only
changes the snippet for fields with options); snippets are not modelled,
only the texts. -/
def comparisonSuggestions (field : Option FieldDef) : List String :=
  match field with
  | none => ["=", "!="]
  | some fd =>
    if fd.type == "bool" then ["=", "!="]
    else
      (if fd.type == "date" || fd.type == "datetime" then
        ["=", "!=", "~", "!~"]
      else if fd.type == "str" then
        ["=", "!=", "~", "!~", "startswith", "not startswith",
         "endswith", "not endswith"]
      else ["=", "!="])
      ++ (if fd.type != "str" then [">", ">=", "<", "<="] else [])
      ++ ["in", "not in"]

/-- Comparison-scope suggestions after the prefix-anchored search filter
(src/index.js lines 976-980 and 1016). -/
def generateComparisonSuggestions (field : Option FieldDef)
    (pfx : String) : List String :=
  (comparisonSuggestions field).filter (fun t => jsStartsWith t pfx)

/-- The part of the Context record that the field-scope branch of
getContext determines. -/
structure FieldScopeCtx where
  pfx : String
  scope : Option String
  model : Option String
  modelStack : List (Option String)
deriving Repr, DecidableEq

/-- JS s.slice(1): drop the first character. -/
def sliceFrom1 (s : String) : String :=
  String.mk (s.data.drop 1)

/-- The field-scope branch of getContext (src/index.js lines 683-704),
entered with the already-computed prefix pfx0 (after the bare-dot
expansion). scope is set to 'field' and model to the current model; when
the prefix has more than one dot-separated part, the last part becomes
the prefix and the preceding parts are resolved with resolveName: a
truthy model with a falsy field swaps in the resolved model and its
modelStack, any other outcome resets scope and model to null while the
modelStack keeps its initial value [currentModel]. A TypeError raised
inside resolveName propagates. -/
def getContextFieldScope (models : Models) (currentModel : Option String)
    (pfx0 : String) : Except Unit FieldScopeCtx :=
  let nameParts := splitDot pfx0
  if nameParts.length > 1 then
    let pfx := nameParts.getLastD ""
    match resolveName models currentModel (joinDot nameParts.dropLast) with
    | .error e => .error e
    | .ok r =>
      if jsTruthy r.model && !(jsTruthy r.field) then
        .ok ⟨pfx, some "field", r.model, r.modelStack⟩
      else
        .ok ⟨pfx, none, none, [currentModel]⟩
  else
    .ok ⟨pfx0, some "field", currentModel, [currentModel]⟩

/-- The part of the Context record that the value-scope branch of
getContext determines. -/
structure ValueScopeCtx where
  pfx : String
  scope : Option String
  model : Option String
  field : Option String
  modelStack : List (Option String)
deriving Repr, DecidableEq

/-- The value-scope branch of getContext (src/index.js lines 711-721),
entered with the NAME token value to resolve and the current prefix. If
the resolved model is truthy the context adopts model, field and
modelStack; then, when the prefix starts with a double quote, the code
evaluates this.models[model][field].type: a model id missing from
models, or a null / unknown field, makes that property access throw
(Except.error), and otherwise the leading quote is stripped exactly when
the field type is 'str' or the field's options attribute is truthy. A
falsy resolved model leaves scope, model and field null. -/
def getContextValueScope (models : Models) (currentModel : Option String)
    (name : String) (pfx0 : String) : Except Unit ValueScopeCtx :=
  match resolveName models currentModel name with
  | .error e => .error e
  | .ok r =>
    if jsTruthy r.model then
      if pfx0.data.head? == some '"' then
        match r.model with
        | none => .error ()
        | some m =>
          match lookupModel models m with
          | none => .error ()
          | some fields =>
            match r.field with
            | none => .error ()
            | some fl =>
              match lookupField fields fl with
              | none => .error ()
              | some fd =>
                if fd.type == "str" || fd.options then
                  .ok ⟨sliceFrom1 pfx0, some "value", r.model, r.field,
                       r.modelStack⟩
                else
                  .ok ⟨pfx0, some "value", r.model, r.field, r.modelStack⟩
      else
        .ok ⟨pfx0, some "value", r.model, r.field, r.modelStack⟩
    else
      .ok ⟨pfx0, none, none, none, [currentModel]⟩

/-- One entry of the suggestions LRU cache for remote field values.
A JS entry may lack the page attribute entirely (Option). -/
structure CacheEntry where
  page : Option Int
  items : List String
  has_next : Bool
  loading : Bool
deriving Repr, DecidableEq

/-- The empty object placed by the JS expression cached || {}: every
attribute reads as undefined / falsy. -/
def emptyCacheEntry : CacheEntry := ⟨none, [], false, false⟩

/-- A delivered page of remote values: the JSON body carrying items,
page and has_next. -/
structure PageData where
  page : Int
  items : List String
  has_next : Bool
deriving Repr, DecidableEq

/-- The success callback of loadFieldOptions (src/index.js lines 801-816)
acting on the cache entry under the request's key: entry is the cached
value at delivery time (none when the key is absent). When
data.page - 1 differs from (cache.page || 0) the delivery is discarded
and the entry is returned unchanged; otherwise the stored entry becomes
the delivered page with the delivered items appended to the cached ones
(the spread of data into a fresh object drops the loading flag). -/
def loadFieldOptionsSuccess (entry : Option CacheEntry) (data : PageData) :
    Option CacheEntry :=
  let cache := entry.getD emptyCacheEntry
  if data.page - 1 != cache.page.getD 0 then
    entry
  else
    some ⟨some data.page, cache.items ++ data.items, data.has_next, false⟩

/-! Concrete schema fixtures, taken from the introspection object of
tests/DjangoQL.test.js, used by counterexamples and witnesses. -/

/-- Field map of auth.group from the test introspections. -/
def groupFields : ModelFields :=
  [("user", ⟨"relation", some "auth.user", false, false⟩),
   ("id", ⟨"int", none, false, false⟩),
   ("name", ⟨"str", none, false, false⟩)]

/-- Field map of auth.user from the test introspections (abridged to the
fields the proofs touch, keeping the relation fields). -/
def userFields : ModelFields :=
  [("book", ⟨"relation", some "core.book", false, false⟩),
   ("id", ⟨"int", none, false, false⟩),
   ("first_name", ⟨"str", none, false, false⟩),
   ("email", ⟨"str", none, false, false⟩),
   ("groups", ⟨"relation", some "auth.group", false, false⟩)]

/-- Field map of core.book from the test introspections. -/
def bookFields : ModelFields :=
  [("id", ⟨"int", none, false, false⟩),
   ("name", ⟨"str", none, false, false⟩),
   ("author", ⟨"relation", some "auth.user", false, false⟩),
   ("written", ⟨"datetime", none, false, false⟩),
   ("is_published", ⟨"bool", none, false, false⟩),
   ("rating", ⟨"float", none, false, false⟩),
   ("price", ⟨"float", none, false, false⟩)]

/-- The models map of the test introspections. -/
def testModels : Models :=
  [("auth.group", groupFields),
   ("auth.user", userFields),
   ("core.book", bookFields)]

/-- A one-model schema with a self-referential relation. -/
def nodeFields : ModelFields :=
  [("self", ⟨"relation", some "core.node", false, false⟩),
   ("id", ⟨"int", none, false, false⟩)]

/-- Schema holding only core.node. -/
def selfModels : Models :=
  [("core.node", nodeFields)]

/-- A schema violating the relation invariant: the relation r of app.a
points at "ghost", which is not a key of the models map. -/
def ghostModels : Models :=
  [("app.a", [("r", ⟨"relation", some "ghost", false, false⟩)])]

/-- A schema with a numeric field carrying enumerated options. -/
def ratingModels : Models :=
  [("store.item", [("rating", ⟨"int", none, true, false⟩)])]

example : resolveName testModels (some "core.book") "price" =
    .ok ⟨[some "core.book"], some "core.book", some "price"⟩ := rfl
example : resolveName testModels (some "core.book") "author" =
    .ok ⟨[some "core.book", some "auth.user"], some "auth.user", none⟩ := rfl
example : resolveName testModels (some "core.book") "author.groups.user.email" =
    .ok ⟨[some "core.book", some "auth.user", some "auth.group",
          some "auth.user"],
         some "auth.user", some "email"⟩ := rfl
example : resolveName testModels (some "core.book") "author.gav" =
    .ok ⟨[some "core.book", some "auth.user"], none, none⟩ := rfl
example : resolveName ghostModels (some "app.a") "r.x" = .error () := rfl
example : resolveName ghostModels (some "app.a") "r" =
    .ok ⟨[some "app.a", some "ghost"], some "ghost", none⟩ := rfl
example : getContextFieldScope testModels (some "core.book") "author.i" =
    .ok ⟨"i", some "field", some "auth.user",
         [some "core.book", some "auth.user"]⟩ := rfl
example : getContextFieldScope testModels (some "auth.group") "user.book." =
    .ok ⟨"", some "field", some "core.book",
         [some "auth.group", some "auth.user", some "core.book"]⟩ := rfl
example : getContextFieldScope testModels (some "core.book") "price.x" =
    .ok ⟨"x", none, none, [some "core.book"]⟩ := rfl
example :
    generateFieldSuggestions bookFields
      [some "auth.group", some "auth.user", some "core.book"] "" =
    ["id", "name", "written", "is_published", "rating", "price"] := rfl
example :
    generateFieldSuggestions nodeFields
      [some "core.node", some "core.node"] "" = ["self", "id"] := rfl
example :
    generateComparisonSuggestions (some ⟨"str", none, false, false⟩) "st" =
    ["startswith"] := rfl
example :
    getContextValueScope ratingModels (some "store.item") "rating" "\"3" =
    .ok ⟨"3", some "value", some "store.item", some "rating",
         [some "store.item"]⟩ := rfl
example :
    getContextValueScope testModels (some "core.book") "name" "\"w" =
    .ok ⟨"w", some "value", some "core.book", some "name",
         [some "core.book"]⟩ := rfl
example :
    getContextValueScope testModels (some "core.book") "rating" "\"1" =
    .ok ⟨"\"1", some "value", some "core.book", some "rating",
         [some "core.book"]⟩ := rfl
example :
    loadFieldOptionsSuccess none ⟨1, ["a", "b"], true⟩ =
    some ⟨some 1, ["a", "b"], true, false⟩ := rfl
example :
    loadFieldOptionsSuccess (some ⟨some 1, ["a"], true, false⟩)
      ⟨3, ["c"], false⟩ = some ⟨some 1, ["a"], true, false⟩ := rfl

/-- In a field map whose keys are distinct, two entries with the same key
carry the same field definition. -/
theorem value_eq_of_nodup_keys {fields : ModelFields}
    (hnd : (fields.map Prod.fst).Nodup) {f : String} {a b : FieldDef}
    (ha : (f, a) ∈ fields) (hb : (f, b) ∈ fields) : a = b := by
  induction fields with
  | nil => cases ha
  | cons p rest ih =>
    rw [List.map_cons, List.nodup_cons] at hnd
    rcases List.mem_cons.mp ha with ha1 | ha2
    · rcases List.mem_cons.mp hb with hb1 | hb2
      · rw [← ha1] at hb1
        exact (Prod.mk.injEq _ _ _ _ ▸ hb1).2.symm
      · exfalso
        apply hnd.1
        rw [← ha1]
        exact List.mem_map.mpr ⟨(f, b), hb2, rfl⟩
    · rcases List.mem_cons.mp hb with hb1 | hb2
      · exfalso
        apply hnd.1
        rw [← hb1]
        exact List.mem_map.mpr ⟨(f, a), ha2, rfl⟩
      · exact ih hnd.2 ha2 hb2

/-- The boolean keep-predicate of the field-scope filter, spelled as a
proposition: a field survives the filter iff it is not a relation whose
target sits in the stack while differing from the last stack element. -/
theorem fieldScopeKeep_iff (stack : List (Option String)) (fd : FieldDef) :
    fieldScopeKeep stack fd = true
    ↔ ¬(fd.type = "relation" ∧ fd.relation ∈ stack
          ∧ stack.getLast? ≠ some fd.relation) := by
  simp [fieldScopeKeep, List.contains, List.elem_eq_mem]
  tauto

/-- Membership in the field-scope suggestion list, for a field map with
distinct keys, is exactly survival of that field's suppression check. -/
theorem mem_fieldScopeSuggestions_iff {fields : ModelFields}
    (stack : List (Option String)) {f : String} {fd : FieldDef}
    (hnd : (fields.map Prod.fst).Nodup) (hmem : (f, fd) ∈ fields) :
    f ∈ fieldScopeSuggestions fields stack
    ↔ ¬(fd.type = "relation" ∧ fd.relation ∈ stack
          ∧ stack.getLast? ≠ some fd.relation) := by
  rw [← fieldScopeKeep_iff stack fd]
  unfold fieldScopeSuggestions
  constructor
  · intro hin
    rcases List.mem_map.mp hin with ⟨p, hp, hp1⟩
    rcases List.mem_filter.mp hp with ⟨hpmem, hpkeep⟩
    have hpf : p = (f, p.2) := by
      rw [← hp1]
    rw [hpf] at hpmem
    have hv : p.2 = fd := value_eq_of_nodup_keys hnd hpmem hmem
    rw [← hv]
    exact hpkeep
  · intro hkeep
    exact List.mem_map.mpr ⟨(f, fd), List.mem_filter.mpr ⟨hmem, hkeep⟩, rfl⟩

/-- C1 (amended): in field scope, generateSuggestions suppresses a
relation field exactly when its target model appears in modelStack and
does NOT equal the last element of modelStack; the last-element
comparison is an exception that keeps relations pointing back at the
context model itself, so a relation whose target appears elsewhere in
the stack (e.g. three hops back) is suppressed rather than suggested. -/
theorem C1_relation_suppression (fields : ModelFields)
    (stack : List (Option String)) (f : String) (fd : FieldDef)
    (hnd : (fields.map Prod.fst).Nodup) (hmem : (f, fd) ∈ fields)
    (hrel : fd.type = "relation") :
    f ∈ fieldScopeSuggestions fields stack
    ↔ ¬(fd.relation ∈ stack ∧ stack.getLast? ≠ some fd.relation) := by
  rw [mem_fieldScopeSuggestions_iff stack hnd hmem]
  simp [hrel]

/-- C1 counterexample: for the test schema's core.book viewed through the
stack [auth.group, auth.user, core.book], the relation field author
targets auth.user, which appears in the stack but is not the last
element. The claim predicts author is still suggested (suppression would
require the target to equal the last element); the code suppresses it,
so the claimed equivalence between suppression and
(in-stack and equal-to-last) is false at this input. -/
theorem C1_counterexample :
    ¬(("author" ∉ fieldScopeSuggestions bookFields
          [some "auth.group", some "auth.user", some "core.book"]) ↔
        ((some "auth.user" : Option String) ∈
            [some "auth.group", some "auth.user", some "core.book"] ∧
          List.getLast? [some "auth.group", some "auth.user",
              some "core.book"] = some (some "auth.user"))) := by
  decide

/-- Witness for C1: the amended equivalence instantiated at the concrete
stack [core.book], where author survives because auth.user is not in the
stack. -/
theorem C1_witness :
    "author" ∈ fieldScopeSuggestions bookFields [some "core.book"]
    ↔ ¬((some "auth.user" : Option String) ∈ [some "core.book"] ∧
          List.getLast? [some "core.book"] ≠ some (some "auth.user")) :=
  C1_relation_suppression bookFields [some "core.book"] "author"
    ⟨"relation", some "auth.user", false, false⟩ (by decide) (by decide) rfl

/-- C2 (amended): field-scope suggestions never include a relation field
whose target equals the immediately preceding model of the modelStack,
provided that preceding model differs from the last stack element; in
particular, starting from auth.group, after typing user.book. the
relation author (pointing back to auth.user) is not offered. (Without
the proviso the claim fails for self-relations, see the
counterexample.) -/
theorem C2_no_immediate_backref (fields : ModelFields)
    (init : List (Option String)) (prev lastm : Option String)
    (pfx f : String) (fd : FieldDef)
    (hnd : (fields.map Prod.fst).Nodup) (hmem : (f, fd) ∈ fields)
    (hrel : fd.type = "relation") (htgt : fd.relation = prev)
    (hne : prev ≠ lastm) :
    f ∉ generateFieldSuggestions fields (init ++ [prev, lastm]) pfx := by
  intro hin
  unfold generateFieldSuggestions at hin
  have h1 : f ∈ fieldScopeSuggestions fields (init ++ [prev, lastm]) :=
    (List.mem_filter.mp hin).1
  have h2 := (mem_fieldScopeSuggestions_iff _ hnd hmem).mp h1
  apply h2
  refine ⟨hrel, ?_, ?_⟩
  · rw [htgt]
    exact List.mem_append_right _ (List.mem_cons_self _ _)
  · have hsplit : init ++ [prev, lastm] = (init ++ [prev]) ++ [lastm] := by
      rw [List.append_assoc]
      rfl
    rw [hsplit, List.getLast?_concat, htgt]
    intro hc
    exact hne (Option.some.inj hc).symm

/-- C2 counterexample: with a single model core.node holding the
self-relation self (target core.node), the cursor position after
typing "self." resolves to field scope with modelStack
[core.node, core.node]; the target of self equals the immediately
preceding stack element, yet self is offered, because the suppression
spares relations equal to the last stack element. -/
theorem C2_counterexample :
    getContextFieldScope selfModels (some "core.node") "self." =
      .ok ⟨"", some "field", some "core.node",
           [some "core.node", some "core.node"]⟩
    ∧ "self" ∈ generateFieldSuggestions nodeFields
        [some "core.node", some "core.node"] ""
    ∧ lookupField nodeFields "self" =
        some ⟨"relation", some "core.node", false, false⟩ :=
  ⟨rfl, by decide, rfl⟩

/-- Witness for C2: the spec's own scenario. From auth.group, typing
user.book. yields field scope with stack
[auth.group, auth.user, core.book], and author (back-reference to
auth.user, the element immediately preceding core.book) is not among the
suggestions. -/
theorem C2_witness :
    getContextFieldScope testModels (some "auth.group") "user.book." =
      .ok ⟨"", some "field", some "core.book",
           [some "auth.group", some "auth.user", some "core.book"]⟩
    ∧ "author" ∉ generateFieldSuggestions bookFields
        [some "auth.group", some "auth.user", some "core.book"] "" :=
  ⟨rfl,
   C2_no_immediate_backref bookFields [some "auth.group"] (some "auth.user")
     (some "core.book") "" "author"
     ⟨"relation", some "auth.user", false, false⟩
     (by decide) (by decide) rfl rfl (by decide)⟩

/-- C3 (amended): in comparison scope a suggestion survives filtering
exactly when its text starts with the typed prefix (prefix-anchored
matching, not substring containment); in particular, typing the prefix
"st" after a string field matches startswith only: "not startswith"
starts with "not", so it is filtered out together with endswith. -/
theorem C3_comparison_filter :
    (∀ (field : Option FieldDef) (pfx t : String),
      t ∈ generateComparisonSuggestions field pfx
      ↔ (t ∈ comparisonSuggestions field
          ∧ pfx.data.isPrefixOf t.data = true))
    ∧ generateComparisonSuggestions (some ⟨"str", none, false, false⟩) "st"
        = ["startswith"] := by
  constructor
  · intro field pfx t
    unfold generateComparisonSuggestions
    rw [List.mem_filter]
    exact Iff.rfl
  · rfl

/-- C3 counterexample: with a string field and typed prefix "st",
"not startswith" is generated before filtering but does not survive the
filter, contradicting the claim that "st" matches not startswith. -/
theorem C3_counterexample :
    "not startswith" ∈ comparisonSuggestions (some ⟨"str", none, false, false⟩)
    ∧ "not startswith" ∉
        generateComparisonSuggestions
          (some ⟨"str", none, false, false⟩) "st" := by
  decide

/-- C9: in comparison scope, before filtering, the generated set always
contains = and != (with or without a resolved field); every string field
additionally yields ~, !~, startswith, not startswith, endswith,
not endswith and none of the ordering operators; the ordering operators
appear for every non-boolean, non-string field; in and not in appear for
every non-boolean field. -/
theorem C9_comparison_operator_sets (fd : FieldDef) :
    ("=" ∈ comparisonSuggestions (some fd)
      ∧ "!=" ∈ comparisonSuggestions (some fd)
      ∧ "=" ∈ comparisonSuggestions none
      ∧ "!=" ∈ comparisonSuggestions none)
    ∧ (fd.type = "str" →
        ("~" ∈ comparisonSuggestions (some fd)
         ∧ "!~" ∈ comparisonSuggestions (some fd)
         ∧ "startswith" ∈ comparisonSuggestions (some fd)
         ∧ "not startswith" ∈ comparisonSuggestions (some fd)
         ∧ "endswith" ∈ comparisonSuggestions (some fd)
         ∧ "not endswith" ∈ comparisonSuggestions (some fd)
         ∧ ">" ∉ comparisonSuggestions (some fd)
         ∧ ">=" ∉ comparisonSuggestions (some fd)
         ∧ "<" ∉ comparisonSuggestions (some fd)
         ∧ "<=" ∉ comparisonSuggestions (some fd)))
    ∧ (fd.type ≠ "bool" → fd.type ≠ "str" →
        (">" ∈ comparisonSuggestions (some fd)
         ∧ ">=" ∈ comparisonSuggestions (some fd)
         ∧ "<" ∈ comparisonSuggestions (some fd)
         ∧ "<=" ∈ comparisonSuggestions (some fd)))
    ∧ (fd.type ≠ "bool" →
        ("in" ∈ comparisonSuggestions (some fd)
         ∧ "not in" ∈ comparisonSuggestions (some fd))) := by
  have hcases : fd.type = "bool" ∨ fd.type = "str" ∨ fd.type = "date"
      ∨ fd.type = "datetime"
      ∨ (fd.type ≠ "bool" ∧ fd.type ≠ "str" ∧ fd.type ≠ "date"
          ∧ fd.type ≠ "datetime") := by
    tauto
  rcases hcases with h | h | h | h | ⟨h1, h2, h3, h4⟩
  · constructor
    · simp [comparisonSuggestions, h]
    refine ⟨?_, ?_, ?_⟩ <;> intro hc <;> rw [h] at hc <;>
      exact absurd hc (by decide)
  · refine ⟨?_, ?_, ?_, ?_⟩
    · simp [comparisonSuggestions, h]
    · intro _
      simp [comparisonSuggestions, h]
    · intro _ hc
      exact absurd h hc
    · intro _
      simp [comparisonSuggestions, h]
  · refine ⟨?_, ?_, ?_, ?_⟩
    · simp [comparisonSuggestions, h]
    · intro hc
      rw [h] at hc
      exact absurd hc (by decide)
    · intro _ _
      simp [comparisonSuggestions, h]
    · intro _
      simp [comparisonSuggestions, h]
  · refine ⟨?_, ?_, ?_, ?_⟩
    · simp [comparisonSuggestions, h]
    · intro hc
      rw [h] at hc
      exact absurd hc (by decide)
    · intro _ _
      simp [comparisonSuggestions, h]
    · intro _
      simp [comparisonSuggestions, h]
  · refine ⟨?_, ?_, ?_, ?_⟩
    · simp [comparisonSuggestions, h1, h2, h3, h4]
    · intro hc
      exact absurd hc h2
    · intro _ _
      simp [comparisonSuggestions, h1, h2, h3, h4]
    · intro _
      simp [comparisonSuggestions, h1, h2, h3, h4]

/-- Witness for C9: the operator sets instantiated at concrete str, int
and float fields. -/
theorem C9_witness :
    ("~" ∈ comparisonSuggestions (some ⟨"str", none, false, false⟩)
     ∧ ">" ∉ comparisonSuggestions (some ⟨"str", none, false, false⟩))
    ∧ ">" ∈ comparisonSuggestions (some ⟨"int", none, false, false⟩)
    ∧ "in" ∈ comparisonSuggestions (some ⟨"float", none, false, false⟩) :=
  ⟨⟨((C9_comparison_operator_sets ⟨"str", none, false, false⟩).2.1 rfl).1,
    ((C9_comparison_operator_sets
        ⟨"str", none, false, false⟩).2.1 rfl).2.2.2.2.2.2.1⟩,
   ((C9_comparison_operator_sets ⟨"int", none, false, false⟩).2.2.1
      (by decide) (by decide)).1,
   ((C9_comparison_operator_sets ⟨"float", none, false, false⟩).2.2.2
      (by decide)).1⟩

/-- C4: in getContext's field-scope branch, when the prefix has multiple
dot-separated parts, the final part becomes the effective prefix and the
preceding parts are resolved with resolveName; a resolution yielding a
truthy model with a falsy field swaps in that model and its modelStack,
and any other resolution outcome resets scope and model to null (the
modelStack keeping its initial [currentModel]); a thrown resolution
propagates. -/
theorem C4_field_scope_multipart (models : Models) (cm : Option String)
    (pfx0 : String) (hmulti : 1 < (splitDot pfx0).length) :
    (∀ r : Resolved,
      resolveName models cm (joinDot (splitDot pfx0).dropLast) = .ok r →
      ((jsTruthy r.model = true → jsTruthy r.field = false →
          getContextFieldScope models cm pfx0 =
            .ok ⟨(splitDot pfx0).getLastD "", some "field", r.model,
                 r.modelStack⟩)
        ∧ (jsTruthy r.model = false ∨ jsTruthy r.field = true →
          getContextFieldScope models cm pfx0 =
            .ok ⟨(splitDot pfx0).getLastD "", none, none, [cm]⟩)))
    ∧ (resolveName models cm (joinDot (splitDot pfx0).dropLast) =
          .error () →
        getContextFieldScope models cm pfx0 = .error ()) := by
  constructor
  · intro r hr
    constructor
    · intro hm hf
      simp [getContextFieldScope, hmulti, hr, hm, hf]
    · intro hor
      rcases hor with hm | hf
      · simp [getContextFieldScope, hmulti, hr, hm]
      · simp [getContextFieldScope, hmulti, hr, hf]
  · intro he
    simp [getContextFieldScope, hmulti, he]

/-- Witness for C4: with the test schema and current model core.book,
the prefix author.first swaps in auth.user with its stack, while
price.x (a path ending at a concrete field) resets scope and model to
null. -/
theorem C4_witness :
    getContextFieldScope testModels (some "core.book") "author.first" =
      .ok ⟨"first", some "field", some "auth.user",
           [some "core.book", some "auth.user"]⟩
    ∧ getContextFieldScope testModels (some "core.book") "price.x" =
      .ok ⟨"x", none, none, [some "core.book"]⟩ :=
  ⟨((C4_field_scope_multipart testModels (some "core.book") "author.first"
      (by decide)).1
      ⟨[some "core.book", some "auth.user"], some "auth.user", none⟩
      rfl).1 rfl rfl,
   ((C4_field_scope_multipart testModels (some "core.book") "price.x"
      (by decide)).1
      ⟨[some "core.book"], some "core.book", some "price"⟩
      rfl).2 (Or.inr rfl)⟩

/-- C5 (amended): if the schema maps some relation field to a target
ModelId that is not a key of models, then resolveName on a dotted name
that traverses that relation and continues with at least one more
segment throws a TypeError (the models lookup of the missing target
yields undefined and the subsequent property access fails), modelled
here as an error result — it does not degrade to the unknown
(model null, field null) result. -/
theorem C5_dangling_relation_throws (models : Models)
    (fields : ModelFields) (m p q : String) (rest : List String)
    (rel : String) (stack : List (Option String)) (fld : Option String)
    (fd : FieldDef)
    (hm : lookupModel models m = some fields)
    (hp : lookupField fields p = some fd)
    (hrel : fd.type = "relation") (htgt : fd.relation = some rel)
    (hghost : lookupModel models rel = none) :
    resolveNameGo models (p :: q :: rest) m stack fld = .error () := by
  simp only [resolveNameGo, hm, hp, hrel, htgt, beq_self_eq_true,
    if_true, hghost]

/-- C5 counterexample: in the schema where app.a.r targets the missing
model "ghost", resolveName on "r.x" ends in the modelled TypeError
instead of the claimed degradation to model null and field null. -/
theorem C5_counterexample :
    resolveName ghostModels (some "app.a") "r.x" = .error () := rfl

/-- Witness for C5: the dangling-relation crash at the concrete ghost
schema. -/
theorem C5_witness :
    resolveNameGo ghostModels ["r", "x"] "app.a" [some "app.a"] none =
      .error () :=
  C5_dangling_relation_throws ghostModels
    [("r", ⟨"relation", some "ghost", false, false⟩)] "app.a" "r" "x" []
    "ghost" [some "app.a"] none ⟨"relation", some "ghost", false, false⟩
    rfl rfl rfl rfl rfl

/-- C6: resolveName is a pure function of the schema, current model and
name (determinism is definitional in this embedding), and a part that is
not a field of the model reached at that point makes the loop return
model null and field null at once, with the remaining parts not
processed: the result on p :: rest coincides with the result on [p]. -/
theorem C6_unknown_part_aborts (models : Models) (fields : ModelFields)
    (m p : String) (rest : List String) (stack : List (Option String))
    (fld : Option String)
    (hm : lookupModel models m = some fields)
    (hp : lookupField fields p = none) :
    resolveNameGo models (p :: rest) m stack fld = .ok ⟨stack, none, none⟩
    ∧ resolveNameGo models (p :: rest) m stack fld =
        resolveNameGo models [p] m stack fld := by
  refine ⟨?_, ?_⟩ <;> simp only [resolveNameGo, hm, hp]

/-- Witness for C6: the unknown part gav aborts resolution on the test
schema, ignoring the trailing id part. -/
theorem C6_witness :
    resolveNameGo testModels ["gav", "id"] "core.book" [some "core.book"]
        none = .ok ⟨[some "core.book"], none, none⟩
    ∧ resolveNameGo testModels ["gav", "id"] "core.book"
        [some "core.book"] none =
      resolveNameGo testModels ["gav"] "core.book" [some "core.book"]
        none :=
  C6_unknown_part_aborts testModels bookFields "core.book" "gav" ["id"]
    [some "core.book"] none rfl rfl

/-- C7 (amended): in the value-scope branch, when the prefix begins with
a double quote, the leading quote is stripped exactly when the resolved
field is string-typed or has truthy enumerated options; for numeric or
boolean fields WITHOUT options the quote is never stripped. (The
claim's unconditional "never for numeric or boolean" fails for a
numeric field carrying options, see the counterexample.) -/
theorem C7_value_quote_strip (models : Models) (cm : Option String)
    (name pfx0 : String) (r : Resolved) (m fl : String)
    (fields : ModelFields) (fd : FieldDef)
    (hres : resolveName models cm name = .ok r)
    (hm : r.model = some m) (hmt : m ≠ "")
    (hf : r.field = some fl)
    (hlm : lookupModel models m = some fields)
    (hlf : lookupField fields fl = some fd)
    (hq : pfx0.data.head? = some '"') :
    ((fd.type = "str" ∨ fd.options = true) →
      getContextValueScope models cm name pfx0 =
        .ok ⟨sliceFrom1 pfx0, some "value", r.model, r.field,
             r.modelStack⟩)
    ∧ (fd.type ≠ "str" → fd.options = false →
      getContextValueScope models cm name pfx0 =
        .ok ⟨pfx0, some "value", r.model, r.field, r.modelStack⟩) := by
  constructor
  · intro hcond
    rcases hcond with hs | ho
    · simp [getContextValueScope, hres, hm, jsTruthy, hmt, hq, hlm, hf,
        hlf, hs]
    · simp [getContextValueScope, hres, hm, jsTruthy, hmt, hq, hlm, hf,
        hlf, ho]
  · intro hs ho
    simp [getContextValueScope, hres, hm, jsTruthy, hmt, hq, hlm, hf,
      hlf, hs, ho]

/-- C7 counterexample: store.item.rating has type int but truthy
options; a value prefix starting with a double quote gets the quote
stripped, contradicting "for numeric or boolean fields the quote is
never stripped". -/
theorem C7_counterexample :
    getContextValueScope ratingModels (some "store.item") "rating"
        "\"3" =
      .ok ⟨"3", some "value", some "store.item", some "rating",
           [some "store.item"]⟩ := rfl

/-- Witness for C7: on the test schema the str field name has its
leading quote stripped while the float field rating keeps it. -/
theorem C7_witness :
    getContextValueScope testModels (some "core.book") "name" "\"w" =
      .ok ⟨"w", some "value", some "core.book", some "name",
           [some "core.book"]⟩
    ∧ getContextValueScope testModels (some "core.book") "rating"
        "\"1" =
      .ok ⟨"\"1", some "value", some "core.book", some "rating",
           [some "core.book"]⟩ :=
  ⟨(C7_value_quote_strip testModels (some "core.book") "name" "\"w"
      ⟨[some "core.book"], some "core.book", some "name"⟩ "core.book"
      "name" bookFields ⟨"str", none, false, false⟩ rfl rfl (by decide)
      rfl rfl rfl rfl).1 (Or.inl rfl),
   (C7_value_quote_strip testModels (some "core.book") "rating" "\"1"
      ⟨[some "core.book"], some "core.book", some "rating"⟩ "core.book"
      "rating" bookFields ⟨"float", none, false, false⟩ rfl rfl
      (by decide) rfl rfl rfl rfl).2 (by decide) rfl⟩

/-- C8: a delivered remote value page is applied to the cache entry —
its items appended to the cached item list — exactly when the delivered
page number is one greater than the cached page number (a missing
cached page counting as 0); any other delivered page number leaves the
entry unchanged. -/
theorem C8_page_delivery (entry : Option CacheEntry) (data : PageData) :
    (data.page = (entry.getD emptyCacheEntry).page.getD 0 + 1 →
      loadFieldOptionsSuccess entry data =
        some ⟨some data.page,
              (entry.getD emptyCacheEntry).items ++ data.items,
              data.has_next, false⟩)
    ∧ (data.page ≠ (entry.getD emptyCacheEntry).page.getD 0 + 1 →
      loadFieldOptionsSuccess entry data = entry) := by
  constructor
  · intro h
    have hz : data.page - 1 = (entry.getD emptyCacheEntry).page.getD 0 :=
      by omega
    simp [loadFieldOptionsSuccess, hz]
  · intro h
    have hz : data.page - 1 ≠ (entry.getD emptyCacheEntry).page.getD 0 :=
      by omega
    simp [loadFieldOptionsSuccess, hz]

/-- Witness for C8: page 1 delivered against an empty cache entry is
appended; page 3 delivered against a cached page 1 is discarded without
touching the items. -/
theorem C8_witness :
    loadFieldOptionsSuccess none ⟨1, ["a", "b"], true⟩ =
      some ⟨some 1, ["a", "b"], true, false⟩
    ∧ loadFieldOptionsSuccess (some ⟨some 1, ["a"], true, false⟩)
        ⟨3, ["c"], false⟩ = some ⟨some 1, ["a"], true, false⟩ :=
  ⟨(C8_page_delivery none ⟨1, ["a", "b"], true⟩).1 (by decide),
   (C8_page_delivery (some ⟨some 1, ["a"], true, false⟩)
      ⟨3, ["c"], false⟩).2 (by decide)⟩

/-- Invariant of the resolveName loop: starting from a non-empty stack
whose last entry is the current model, a successful run keeps the head
of the stack, returns a non-empty stack, and whenever it returns a
non-null model the stack ends in exactly that model. -/
theorem resolveNameGo_stack_invariant (models : Models)
    (parts : List String) :
    ∀ (m : String) (stack : List (Option String)) (fld : Option String)
      (r : Resolved),
      stack ≠ [] → stack.getLast? = some (some m) →
      resolveNameGo models parts m stack fld = .ok r →
      (r.modelStack ≠ [] ∧ r.modelStack.head? = stack.head?
        ∧ ∀ x : String, r.model = some x →
            r.modelStack.getLast? = some (some x)) := by
  induction parts with
  | nil =>
    intro m stack fld r hne hlast hok
    simp only [resolveNameGo] at hok
    injection hok with hok
    rw [← hok]
    refine ⟨hne, rfl, ?_⟩
    intro x hx
    rw [← Option.some.inj hx]
    exact hlast
  | cons p rest ih =>
    intro m stack fld r hne hlast hok
    simp only [resolveNameGo] at hok
    cases hlm : lookupModel models m with
    | none =>
      simp only [hlm] at hok
      exact Except.noConfusion hok
    | some fields =>
      simp only [hlm] at hok
      cases hlf : lookupField fields p with
      | none =>
        simp only [hlf] at hok
        injection hok with hok
        rw [← hok]
        exact ⟨hne, rfl, fun x hx => by cases hx⟩
      | some f =>
        simp only [hlf] at hok
        by_cases hr : f.type = "relation"
        · rw [if_pos (by simp [hr])] at hok
          cases htgt : f.relation with
          | some rel =>
            simp only [htgt] at hok
            have hres := ih rel (stack ++ [some rel]) none r
              (List.append_ne_nil_of_left_ne_nil hne _)
              (List.getLast?_concat _) hok
            refine ⟨hres.1, ?_, hres.2.2⟩
            rw [hres.2.1, List.head?_append_of_ne_nil _ hne]
          | none =>
            simp only [htgt] at hok
            cases rest with
            | nil =>
              simp only [] at hok
              injection hok with hok
              rw [← hok]
              refine ⟨List.append_ne_nil_of_left_ne_nil hne _, ?_,
                fun x hx => by cases hx⟩
              rw [List.head?_append_of_ne_nil _ hne]
            | cons q qs =>
              exact Except.noConfusion hok
        · rw [if_neg (by simp [hr])] at hok
          exact ih m stack (some p) r hne hlast hok

/-- C10: for every schema with a truthy current model and every dotted
name, a non-throwing resolveName call returns a non-empty modelStack
whose first element is the current model, and whenever the returned
model is non-null the last element of the returned modelStack equals
it. -/
theorem C10_modelStack_invariant (models : Models) (m name : String)
    (r : Resolved) (hmt : m ≠ "")
    (hok : resolveName models (some m) name = .ok r) :
    r.modelStack ≠ [] ∧ r.modelStack.head? = some (some m)
    ∧ ∀ x : String, r.model = some x →
        r.modelStack.getLast? = some (some x) := by
  simp only [resolveName] at hok
  rw [if_pos (bne_iff_ne.mpr hmt)] at hok
  have hres := resolveNameGo_stack_invariant models (splitDot name) m
    [some m] none r (by simp) rfl hok
  exact ⟨hres.1, by rw [hres.2.1]; rfl, hres.2.2⟩

/-- Witness for C10: the stack produced for author.groups from
core.book starts at core.book and ends at the returned model
auth.group. -/
theorem C10_witness :
    ([some "core.book", some "auth.user", some "auth.group"] :
        List (Option String)) ≠ []
    ∧ ([some "core.book", some "auth.user", some "auth.group"] :
        List (Option String)).head? = some (some "core.book")
    ∧ ([some "core.book", some "auth.user", some "auth.group"] :
        List (Option String)).getLast? = some (some "auth.group") := by
  have h := C10_modelStack_invariant testModels "core.book"
    "author.groups"
    ⟨[some "core.book", some "auth.user", some "auth.group"],
     some "auth.group", none⟩ (by decide) rfl
  exact ⟨h.1, h.2.1, h.2.2 "auth.group" rfl⟩

end DjangoQL
